import Mathlib

set_option autoImplicit false

/-!
# Verification of the LULU sales-dashboard pipeline

Shallow embedding of the two dashboard scripts (`app.py` and `new_app.py`).
Tables are lists of records; monetary amounts, ages and timestamps are
rationals (a timestamp is measured in days since 1970-01-01, so that its
fractional part is the time of day and adding one calendar day adds 1).
-/

/-! ## Generic list helpers -/

/-- Number of distinct values of a list (models `Series.nunique`). -/
def distinctCount {α : Type} [DecidableEq α] (l : List α) : ℕ :=
  l.dedup.length

/-- Lexicographic comparison of char lists by code point, the order pandas
uses when sorting string group keys. -/
def charListLe : List Char → List Char → Bool
  | [], _ => true
  | _ :: _, [] => false
  | a :: as, b :: bs => if a < b then true else if b < a then false else charListLe as bs

/-- String comparison by code points. -/
def strLe (a b : String) : Prop :=
  charListLe a.data b.data = true

instance : DecidableRel strLe := fun a b => by
  unfold strLe; infer_instance

/-- Lexicographic order on pairs of strings, as `groupby` orders a
two-column key. -/
def pairLe (a b : String × String) : Prop :=
  if a.1 = b.1 then strLe a.2 b.2 else strLe a.1 b.1

instance : DecidableRel pairLe := fun a b => by
  unfold pairLe; infer_instance

/-- The group keys produced by `DataFrame.groupby(keys, sort=True)`:
the distinct key values in ascending order. -/
def groupKeys {α κ : Type} [DecidableEq κ] (le : κ → κ → Prop) [DecidableRel le]
    (key : α → κ) (l : List α) : List κ :=
  List.insertionSort le (l.map key).dedup

/-! ## Data model (§3 of the spec, columns of `transactions.csv`) -/

/-- One row of the transaction table. -/
structure Transaction where
  transaction_id : String
  customer_id : String
  transaction_datetime : ℚ
  emirate : String
  category : String
  product : String
  quantity : ℤ
  total_aed : ℚ
  gender : String
  age : ℚ
  has_loyalty : Bool
  points_redeemed : ℤ
deriving DecidableEq

/-- One row of `ad_budget_monthly.csv`. -/
structure AdRow where
  month : String
  category : String
  ad_budget_aed : ℚ
deriving DecidableEq

/-- The sidebar filter state: a date range (day numbers, both endpoints
dates), three multi-select lists and the loyalty selectbox value
("All" / "Loyalty Members" / "Non-members"). -/
structure FilterState where
  startDate : ℤ
  endDate : ℤ
  emirates : List String
  categories : List String
  genders : List String
  loyalty_filter : String
deriving DecidableEq

namespace App

/-! ## Filter engine (`app.py` lines 32-40) -/

/-- Lines 34-35: `start = to_datetime(date_range[0])`,
`end = to_datetime(date_range[1]) + Timedelta(days=1)`, then keep rows with
`start <= transaction_datetime < end`.  The endpoints are whole dates, so
the bounds are the integral day numbers `startDate` and `endDate + 1`. -/
def dateFiltered (t : List Transaction) (fs : FilterState) : List Transaction :=
  t.filter (fun r =>
    decide ((fs.startDate : ℚ) ≤ r.transaction_datetime ∧
      r.transaction_datetime < ((fs.endDate + 1 : ℤ) : ℚ)))

/-- Line 36: keep rows whose emirate, category and gender are in the
multiselect lists (`Series.isin`). -/
def catFiltered (t : List Transaction) (fs : FilterState) : List Transaction :=
  (dateFiltered t fs).filter (fun r =>
    decide (r.emirate ∈ fs.emirates ∧ r.category ∈ fs.categories ∧
      r.gender ∈ fs.genders))

/-- Lines 37-40: the loyalty selectbox branch. -/
def filteredView (t : List Transaction) (fs : FilterState) : List Transaction :=
  if fs.loyalty_filter = "Loyalty Members" then
    (catFiltered t fs).filter (fun r => r.has_loyalty == true)
  else if fs.loyalty_filter = "Non-members" then
    (catFiltered t fs).filter (fun r => r.has_loyalty == false)
  else
    catFiltered t fs

/-! ## KPIs (`app.py` lines 43-48) -/

/-- Line 43: `df['total_aed'].sum()`. -/
def totalSales (v : List Transaction) : ℚ :=
  (v.map (·.total_aed)).sum

/-- Line 44: `df['transaction_id'].nunique()`. -/
def totalTransactions (v : List Transaction) : ℕ :=
  distinctCount (v.map (·.transaction_id))

/-- Line 45: `df['total_aed'].mean()`; the mean of an empty series is NaN,
modelled as `none`. -/
def avgBasket (v : List Transaction) : Option ℚ :=
  if v.isEmpty then none else some (totalSales v / (v.length : ℚ))

end App

/-- The labels passed to `pd.cut` (`app.py` line 55 and `new_app.py`
line 57), in categorical order. -/
def ageLabels : List String :=
  ["18-24", "25-34", "35-44", "45-54", "55-64", "65+"]

namespace App

/-! ## Age distribution (`app.py` lines 54-56) -/

/-- Line 55: `pd.cut(age, bins=[18,25,35,45,55,65,80], labels=..., include_lowest=True)`.
`pd.cut` builds right-closed intervals, and `include_lowest` closes the first
one on the left, so the bins are `[18,25], (25,35], ..., (65,80]`; a value
outside every bin becomes NaN (`none`). -/
def ageGroupOf (a : ℚ) : Option String :=
  if 18 ≤ a ∧ a ≤ 25 then some "18-24"
  else if 25 < a ∧ a ≤ 35 then some "25-34"
  else if 35 < a ∧ a ≤ 45 then some "35-44"
  else if 45 < a ∧ a ≤ 55 then some "45-54"
  else if 55 < a ∧ a ≤ 65 then some "55-64"
  else if 65 < a ∧ a ≤ 80 then some "65+"
  else none

/-- Line 56: `df.groupby('age_group')['total_aed'].sum()`.  Grouping on a
categorical column keeps every category (in label order) and drops the NaN
keys. -/
def ageDist (v : List Transaction) : List (String × ℚ) :=
  ageLabels.map (fun l =>
    (l, totalSales (v.filter (fun r => decide (ageGroupOf r.age = some l)))))

/-! ## Gender and emirate×category distributions (lines 60, 66) -/

/-- Line 60: `df.groupby('gender')['total_aed'].sum()`. -/
def genderDist (v : List Transaction) : List (String × ℚ) :=
  (groupKeys strLe (·.gender) v).map (fun g =>
    (g, totalSales (v.filter (fun r => r.gender == g))))

/-- Line 66: `df.groupby(['emirate','category'])['total_aed'].sum()`. -/
def catEm (v : List Transaction) : List (String × String × ℚ) :=
  (groupKeys pairLe (fun r => (r.emirate, r.category)) v).map (fun k =>
    (k.1, k.2, totalSales (v.filter (fun r => r.emirate == k.1 && r.category == k.2))))

end App

/-! ## Loyalty impact and redemption rows -/

/-- One row of the loyalty-impact table (`app.py` lines 72-73). -/
structure LoyalRow where
  label : String
  total_sales : ℚ
  transactions : ℕ
  avg_basket : Option ℚ
deriving DecidableEq

/-- One row of the redemption summary (`app.py` line 80). -/
structure RedeemRow where
  customer_id : String
  points_redeemed : ℤ
  sales_after_redeem : ℚ
deriving DecidableEq

/-- One row of the merged ad-budget/sales table (`app.py` line 92). -/
structure MergedRow where
  month : String
  category : String
  ad_budget_aed : ℚ
  total_aed : ℚ
deriving DecidableEq

/-- One row of the top-products table (`app.py` line 114). -/
structure TopRow where
  category : String
  product : String
  sales : ℚ
  qty : ℤ
deriving DecidableEq

namespace App

/-- Lines 72-73: `df.groupby('has_loyalty').agg(total_sales, transactions
(nunique), avg_basket)` followed by the `{True:'Members', False:'Non-members'}`
label map.  `groupby` sorts the present keys, `False` before `True`. -/
def loyalTable (v : List Transaction) : List LoyalRow :=
  (groupKeys (· ≤ ·) (·.has_loyalty) v).map (fun b =>
    { label := if b then "Members" else "Non-members"
      total_sales := totalSales (v.filter (·.has_loyalty == b))
      transactions := totalTransactions (v.filter (·.has_loyalty == b))
      avg_basket := avgBasket (v.filter (·.has_loyalty == b)) })

/-- Line 78: `redeem = df[df['points_redeemed'] > 0]`. -/
def redeemRows (v : List Transaction) : List Transaction :=
  v.filter (fun r => decide (0 < r.points_redeemed))

/-- Line 80: `redeem.groupby('customer_id').agg(sum points_redeemed,
sum total_aed)`. -/
def redeemSummary (v : List Transaction) : List RedeemRow :=
  (groupKeys strLe (·.customer_id) (redeemRows v)).map (fun c =>
    { customer_id := c
      points_redeemed := (((redeemRows v).filter (·.customer_id == c)).map
        (·.points_redeemed)).sum
      sales_after_redeem := totalSales ((redeemRows v).filter (·.customer_id == c)) })

/-! ## Month key (`app.py` line 89): `dt.to_period('M').astype(str)` -/

end App

/-- Year and month of a day number (days since 1970-01-01), by the standard
civil-calendar conversion. -/
def civilYearMonth (z0 : ℤ) : ℤ × ℤ :=
  let z := z0 + 719468
  let era := (if 0 ≤ z then z else z - 146096) / 146097
  let doe := z - era * 146097
  let yoe := (doe - doe / 1460 + doe / 36524 - doe / 146096) / 365
  let y := yoe + era * 400
  let doy := doe - (365 * yoe + yoe / 4 - yoe / 100)
  let mp := (5 * doy + 2) / 153
  let m := mp + (if mp < 10 then 3 else -9)
  (if m ≤ 2 then y + 1 else y, m)

/-- Zero-padded two-digit rendering of a month number. -/
def pad2 (n : ℤ) : String :=
  (if n < 10 then "0" else "") ++ toString n

/-- `Timestamp.to_period('M').astype(str)`: the "YYYY-MM" key of the
timestamp's calendar month. -/
def monthKey (dt : ℚ) : String :=
  let ym := civilYearMonth ⌊dt⌋
  toString ym.1 ++ "-" ++ pad2 ym.2

/-- One row of `sales_month_cat` (`app.py` line 90). -/
structure SalesMonthRow where
  month : String
  category : String
  total_aed : ℚ
deriving DecidableEq

namespace App

/-- Lines 88-90: derive the month key and group by `(month, category)`
summing `total_aed`. -/
def salesMonthCat (v : List Transaction) : List SalesMonthRow :=
  (groupKeys pairLe (fun r => (monthKey r.transaction_datetime, r.category)) v).map
    (fun k =>
      { month := k.1
        category := k.2
        total_aed := totalSales (v.filter (fun r =>
          decide (monthKey r.transaction_datetime = k.1 ∧ r.category = k.2))) })

/-- Line 92: `pd.merge(ad, sales_month_cat, on=['month','category'],
how='left').fillna(0)`.  A left merge keeps exactly the ad-budget rows;
`sales_month_cat` has unique keys, so each ad row matches at most one sales
row, and a missing match leaves NaN which `fillna(0)` turns into 0. -/
def merged (ads : List AdRow) (v : List Transaction) : List MergedRow :=
  ads.map (fun a =>
    match (salesMonthCat v).find? (fun s =>
        decide (s.month = a.month ∧ s.category = a.category)) with
    | some s => ⟨a.month, a.category, a.ad_budget_aed, s.total_aed⟩
    | none => ⟨a.month, a.category, a.ad_budget_aed, 0⟩)

/-! ## Top products (`app.py` line 114) -/

/-- The `df.groupby(['category','product']).agg(sales=sum total_aed,
qty=sum quantity)` table, keys in ascending order. -/
def groupedProducts (v : List Transaction) : List TopRow :=
  (groupKeys pairLe (fun r => (r.category, r.product)) v).map (fun k =>
    { category := k.1
      product := k.2
      sales := totalSales (v.filter (fun r => r.category == k.1 && r.product == k.2))
      qty := ((v.filter (fun r => r.category == k.1 && r.product == k.2)).map
        (·.quantity)).sum })

/-- Line 114: `.sort_values('sales', ascending=False).head(15)`.  The default
`kind='quicksort'` guarantees the descending order but leaves the relative
order of equal `sales` values unspecified; the model realizes the sort as a
descending insertion sort - one concrete such ordering - so only properties
that do not depend on the order of ties are read back onto the program. -/
def topProducts (v : List Transaction) : List TopRow :=
  (List.insertionSort (fun a b : TopRow => b.sales ≤ a.sales) (groupedProducts v)).take 15

end App

/-! ## Rendering of the KPI metrics (`app.py` lines 46-48)

`st.metric` receives `f"{value:,.2f}"`: fixed two decimals (round half to
even), thousands separators, and the float NaN formats as the text "nan". -/

/-- Round half to even, as Python float formatting does at the last kept
digit. -/
def roundHalfEven (x : ℚ) : ℤ :=
  let f : ℤ := ⌊x⌋
  if x - (f : ℚ) < 1/2 then f
  else if (1/2 : ℚ) < x - (f : ℚ) then f + 1
  else if f % 2 = 0 then f else f + 1

/-- Insert a thousands separator every three digits; the input and output
digit lists run least-significant first. -/
def groupDigits : List Char → List Char
  | a :: b :: c :: d :: rest => a :: b :: c :: ',' :: groupDigits (d :: rest)
  | l => l

/-- Python's `f"{v:,.2f}"` on a (non-NaN) value. -/
def fmtComma2 (q : ℚ) : String :=
  let n : ℤ := roundHalfEven (|q| * 100)
  let ip := n / 100
  let fp := n % 100
  let ipStr := String.mk (groupDigits (toString ip).data.reverse).reverse
  let fpStr := (if fp < 10 then "0" else "") ++ toString fp
  (if q < 0 then "-" else "") ++ ipStr ++ "." ++ fpStr

namespace App

/-- Line 48: the string `st.metric` shows for the average basket;
`f"{nan:,.2f}"` is `"nan"`. -/
def avgBasketDisplay (v : List Transaction) : String :=
  match avgBasket v with
  | none => "nan"
  | some q => fmtComma2 q

end App

/-! ## CSV export (`app.py` line 121: `df.to_csv(index=False)`)

`to_csv` writes one comma-separated record per line, quoting minimally
(a field is quoted iff it contains the delimiter, the quote char or a line
break, with embedded quotes doubled); re-reading with `read_csv` splits
records outside quotes and skips blank lines. -/

/-- Whether `to_csv` must quote a field (csv `QUOTE_MINIMAL`). -/
def needsQuote (s : String) : Bool :=
  s.data.any (fun c => c = ',' || c = '"' || c = '\n' || c = '\r')

/-- Double every quote character (csv escaping inside a quoted field). -/
def escQuotes : List Char → List Char
  | [] => []
  | c :: cs => if c = '"' then '"' :: '"' :: escQuotes cs else c :: escQuotes cs

/-- Serialize one field. -/
def renderField (s : String) : String :=
  if needsQuote s then String.mk ('"' :: (escQuotes s.data ++ ['"'])) else s

/-- Serialize one record: fields joined by the delimiter. -/
def renderRecord : List String → String
  | [] => ""
  | [f] => renderField f
  | f :: rest => renderField f ++ "," ++ renderRecord rest

/-- Serialize a record list, each record terminated by a newline, as
`to_csv` does. -/
def toCsv : List (List String) → String
  | [] => ""
  | rec :: rest => renderRecord rec ++ "\n" ++ toCsv rest

/-- The three states of the csv reader: outside quotes, inside a quoted
field, and just after a closing quote (where a second quote means an escaped
quote character). -/
inductive CsvMode where
  | plain
  | quoted
  | closedQuote
deriving DecidableEq

/-- The csv reading state machine: input characters, mode, the characters of
the current field, the completed fields of the current record.  (Line breaks
inside fields are always quoted by the writer, so outside quotes only `'\n'`
terminates a record.) -/
def scanCsv : List Char → CsvMode → List Char → List String → List (List String)
  | [], _, cur, rec =>
      if cur = [] ∧ rec = [] then [] else [rec ++ [String.mk cur]]
  | c :: cs, CsvMode.quoted, cur, rec =>
      if c = '"' then scanCsv cs CsvMode.closedQuote cur rec
      else scanCsv cs CsvMode.quoted (cur ++ [c]) rec
  | c :: cs, CsvMode.closedQuote, cur, rec =>
      if c = '"' then scanCsv cs CsvMode.quoted (cur ++ ['"']) rec
      else if c = ',' then scanCsv cs CsvMode.plain [] (rec ++ [String.mk cur])
      else if c = '\n' then (rec ++ [String.mk cur]) :: scanCsv cs CsvMode.plain [] []
      else scanCsv cs CsvMode.plain (cur ++ [c]) rec
  | c :: cs, CsvMode.plain, cur, rec =>
      if c = '"' then scanCsv cs CsvMode.quoted cur rec
      else if c = ',' then scanCsv cs CsvMode.plain [] (rec ++ [String.mk cur])
      else if c = '\n' then (rec ++ [String.mk cur]) :: scanCsv cs CsvMode.plain [] []
      else scanCsv cs CsvMode.plain (cur ++ [c]) rec

/-- `read_csv` on a string: split into records and skip blank lines
(`skip_blank_lines=True`). -/
def parseCsv (s : String) : List (List String) :=
  (scanCsv s.data CsvMode.plain [] []).filter (fun rec => rec ≠ [""])

namespace App

/-- The columns of the exported frame: the transaction columns plus the
`age_group` column added in place at line 55, which is part of `df` by the
time line 121 runs. -/
def exportHeader : List String :=
  ["transaction_id", "customer_id", "transaction_datetime", "emirate", "category",
   "product", "quantity", "total_aed", "gender", "age", "has_loyalty",
   "points_redeemed", "age_group"]

/-- The exported cells of one row (a NaN `age_group` exports as an empty
field). -/
def exportRow (r : Transaction) : List String :=
  [r.transaction_id, r.customer_id, toString r.transaction_datetime, r.emirate,
   r.category, r.product, toString r.quantity, toString r.total_aed, r.gender,
   toString r.age, if r.has_loyalty then "True" else "False",
   toString r.points_redeemed,
   match ageGroupOf r.age with | some l => l | none => ""]

/-- Line 121: `df.to_csv(index=False)` — header record then one record per
row, no index column. -/
def exportCsv (v : List Transaction) : String :=
  toCsv (exportHeader :: v.map exportRow)

end App

namespace NewApp

/-! ## Variant 2: `new_app.py`.

Lines 34-50 (filter and KPIs), 54-86 (demographics, loyalty, redemption) and
139-143 (top products) are textually identical to `app.py`; the scripts
differ in how the ad-budget-vs-sales chart is built (lines 96-111). -/

/-- `new_app.py` lines 36-37. -/
def dateFiltered (t : List Transaction) (fs : FilterState) : List Transaction :=
  t.filter (fun r =>
    decide ((fs.startDate : ℚ) ≤ r.transaction_datetime ∧
      r.transaction_datetime < ((fs.endDate + 1 : ℤ) : ℚ)))

/-- `new_app.py` line 38. -/
def catFiltered (t : List Transaction) (fs : FilterState) : List Transaction :=
  (dateFiltered t fs).filter (fun r =>
    decide (r.emirate ∈ fs.emirates ∧ r.category ∈ fs.categories ∧
      r.gender ∈ fs.genders))

/-- `new_app.py` lines 39-42. -/
def filteredView (t : List Transaction) (fs : FilterState) : List Transaction :=
  if fs.loyalty_filter = "Loyalty Members" then
    (catFiltered t fs).filter (fun r => r.has_loyalty == true)
  else if fs.loyalty_filter = "Non-members" then
    (catFiltered t fs).filter (fun r => r.has_loyalty == false)
  else
    catFiltered t fs

/-- `new_app.py` line 45. -/
def totalSales (v : List Transaction) : ℚ :=
  (v.map (·.total_aed)).sum

/-- `new_app.py` line 46. -/
def totalTransactions (v : List Transaction) : ℕ :=
  distinctCount (v.map (·.transaction_id))

/-- `new_app.py` line 47. -/
def avgBasket (v : List Transaction) : Option ℚ :=
  if v.isEmpty then none else some (totalSales v / (v.length : ℚ))

/-- `new_app.py` line 57 (same `pd.cut` call as `app.py`). -/
def ageGroupOf (a : ℚ) : Option String :=
  if 18 ≤ a ∧ a ≤ 25 then some "18-24"
  else if 25 < a ∧ a ≤ 35 then some "25-34"
  else if 35 < a ∧ a ≤ 45 then some "35-44"
  else if 45 < a ∧ a ≤ 55 then some "45-54"
  else if 55 < a ∧ a ≤ 65 then some "55-64"
  else if 65 < a ∧ a ≤ 80 then some "65+"
  else none

/-- `new_app.py` line 58. -/
def ageDist (v : List Transaction) : List (String × ℚ) :=
  ageLabels.map (fun l =>
    (l, totalSales (v.filter (fun r => decide (ageGroupOf r.age = some l)))))

/-- `new_app.py` line 62. -/
def genderDist (v : List Transaction) : List (String × ℚ) :=
  (groupKeys strLe (·.gender) v).map (fun g =>
    (g, totalSales (v.filter (fun r => r.gender == g))))

/-- `new_app.py` line 68. -/
def catEm (v : List Transaction) : List (String × String × ℚ) :=
  (groupKeys pairLe (fun r => (r.emirate, r.category)) v).map (fun k =>
    (k.1, k.2, totalSales (v.filter (fun r => r.emirate == k.1 && r.category == k.2))))

/-- `new_app.py` lines 74-75. -/
def loyalTable (v : List Transaction) : List LoyalRow :=
  (groupKeys (· ≤ ·) (·.has_loyalty) v).map (fun b =>
    { label := if b then "Members" else "Non-members"
      total_sales := totalSales (v.filter (·.has_loyalty == b))
      transactions := totalTransactions (v.filter (·.has_loyalty == b))
      avg_basket := avgBasket (v.filter (·.has_loyalty == b)) })

/-- `new_app.py` line 80. -/
def redeemRows (v : List Transaction) : List Transaction :=
  v.filter (fun r => decide (0 < r.points_redeemed))

/-- `new_app.py` line 82. -/
def redeemSummary (v : List Transaction) : List RedeemRow :=
  (groupKeys strLe (·.customer_id) (redeemRows v)).map (fun c =>
    { customer_id := c
      points_redeemed := (((redeemRows v).filter (·.customer_id == c)).map
        (·.points_redeemed)).sum
      sales_after_redeem := totalSales ((redeemRows v).filter (·.customer_id == c)) })

/-- `new_app.py` lines 90-92. -/
def salesMonthCat (v : List Transaction) : List SalesMonthRow :=
  (groupKeys pairLe (fun r => (monthKey r.transaction_datetime, r.category)) v).map
    (fun k =>
      { month := k.1
        category := k.2
        total_aed := totalSales (v.filter (fun r =>
          decide (monthKey r.transaction_datetime = k.1 ∧ r.category = k.2))) })

/-- `new_app.py` lines 96-98: the same left merge, followed by per-column
`pd.to_numeric(...).fillna(0)` (the identity on the already-numeric budget
column, and 0 for the NaN of an unmatched ad row).  The month-parsing
fallback and chronological sort of lines 101-111 only shape the chart and
are not modelled. -/
def merged (ads : List AdRow) (v : List Transaction) : List MergedRow :=
  ads.map (fun a =>
    match (salesMonthCat v).find? (fun s =>
        decide (s.month = a.month ∧ s.category = a.category)) with
    | some s => ⟨a.month, a.category, a.ad_budget_aed, s.total_aed⟩
    | none => ⟨a.month, a.category, a.ad_budget_aed, 0⟩)

/-- `new_app.py` line 141. -/
def groupedProducts (v : List Transaction) : List TopRow :=
  (groupKeys pairLe (fun r => (r.category, r.product)) v).map (fun k =>
    { category := k.1
      product := k.2
      sales := totalSales (v.filter (fun r => r.category == k.1 && r.product == k.2))
      qty := ((v.filter (fun r => r.category == k.1 && r.product == k.2)).map
        (·.quantity)).sum })

/-- `new_app.py` line 141, `.sort_values('sales', ascending=False).head(15)`;
as in `app.py`, the unspecified tie order of the default quicksort is
realized here by the same concrete descending insertion sort. -/
def topProducts (v : List Transaction) : List TopRow :=
  (List.insertionSort (fun a b : TopRow => b.sales ≤ a.sales) (groupedProducts v)).take 15

end NewApp

/-! ## The whole render pass as one function (§9 of the spec:
`render(filterState, sources) -> viewModel`) -/

/-- Everything the aggregation layer hands to the presentation layer. -/
structure DashboardView where
  total_sales : ℚ
  total_transactions : ℕ
  avg_basket : Option ℚ
  age_dist : List (String × ℚ)
  gender_dist : List (String × ℚ)
  cat_em : List (String × String × ℚ)
  loyal : List LoyalRow
  redeem : List RedeemRow
  ad_vs_sales : List MergedRow
  top_products : List TopRow
  export_csv : String
deriving DecidableEq

namespace App

/-- One full recomputation pass of `app.py`: filter, KPIs, the seven grouped
views and the export payload, as a function of the loaded transaction table,
the ad-budget table and the sidebar filter state. -/
def dashboard (t : List Transaction) (ads : List AdRow) (fs : FilterState) :
    DashboardView :=
  let v := filteredView t fs
  { total_sales := totalSales v
    total_transactions := totalTransactions v
    avg_basket := avgBasket v
    age_dist := ageDist v
    gender_dist := genderDist v
    cat_em := catEm v
    loyal := loyalTable v
    redeem := redeemSummary v
    ad_vs_sales := merged ads v
    top_products := topProducts v
    export_csv := exportCsv v }

end App

/-! Sanity checks of the filter embedding on a concrete row. -/

def exTx : Transaction :=
  ⟨"T1", "C1", 0, "Dubai", "Toys", "Lego", 1, 50, "F", 30, true, 0⟩

def exFs : FilterState :=
  ⟨-1, 1, ["Dubai"], ["Toys"], ["F"], "All"⟩

example : App.filteredView [exTx] exFs = [exTx] := by decide
example : App.filteredView [exTx] { exFs with emirates := [] } = [] := by decide
example : App.totalSales (App.filteredView [exTx] exFs) = 50 := by
  simp only [App.filteredView, App.catFiltered, App.dateFiltered, App.totalSales, exTx, exFs]
  rw [if_neg (by decide), if_neg (by decide)]
  norm_num
example : App.avgBasket [] = none := rfl
example : groupKeys pairLe (fun r : Transaction => (r.category, r.product)) [exTx]
    = [("Toys", "Lego")] := by decide
example : monthKey 0 = "1970-01" := by decide
example : ((App.loyalTable [exTx]).map (·.transactions)).sum = 1 := by decide
example : (App.merged [⟨"2025-01", "Grocery", 1000⟩] [exTx]).map (·.month)
    = ["2025-01"] := by decide
example : App.ageGroupOf 25 = some "18-24" := by decide
example : parseCsv (toCsv [["a", "b"], ["1", "x,y"], ["q\"uo", "z\nw"]])
    = [["a", "b"], ["1", "x,y"], ["q\"uo", "z\nw"]] := by decide
set_option maxRecDepth 4000 in
example : (parseCsv (App.exportCsv [exTx])).length = 2 := by decide


/-! # Theorems -/

/-! ## C1: characterization of the filtered view -/

/-- The four filter predicates as the spec states them: date window,
membership in the three selected sets, and the loyalty condition (All: no
condition; Members: `has_loyalty == true`; NonMembers: `has_loyalty == false`). -/
def passesFilters (fs : FilterState) (r : Transaction) : Prop :=
  ((fs.startDate : ℚ) ≤ r.transaction_datetime ∧
    r.transaction_datetime < ((fs.endDate + 1 : ℤ) : ℚ)) ∧
  r.emirate ∈ fs.emirates ∧ r.category ∈ fs.categories ∧ r.gender ∈ fs.genders ∧
  (if fs.loyalty_filter = "Loyalty Members" then r.has_loyalty = true
   else if fs.loyalty_filter = "Non-members" then r.has_loyalty = false
   else True)

instance (fs : FilterState) (r : Transaction) : Decidable (passesFilters fs r) := by
  unfold passesFilters; infer_instance

/-- The three-stage filter pipeline is one filter by the conjunction of the
four predicates. -/
theorem filteredView_eq_filter (t : List Transaction) (fs : FilterState) :
    App.filteredView t fs = t.filter (fun r => decide (passesFilters fs r)) := by
  unfold App.filteredView App.catFiltered App.dateFiltered
  by_cases h1 : fs.loyalty_filter = "Loyalty Members"
  · rw [if_pos h1, List.filter_filter, List.filter_filter]
    apply List.filter_congr
    intro r _
    simp [passesFilters, h1, decide_eq_true_eq, Bool.and_assoc, Bool.and_comm,
      Bool.and_left_comm]
  · by_cases h2 : fs.loyalty_filter = "Non-members"
    · rw [if_neg h1, if_pos h2, List.filter_filter, List.filter_filter]
      apply List.filter_congr
      intro r _
      simp [passesFilters, h1, h2, decide_eq_true_eq, Bool.and_assoc, Bool.and_comm,
        Bool.and_left_comm]
    · rw [if_neg h1, if_neg h2, List.filter_filter]
      apply List.filter_congr
      intro r _
      simp [passesFilters, h1, h2, decide_eq_true_eq, Bool.and_assoc, Bool.and_comm,
        Bool.and_left_comm]

/-- C1: the filtered view contains exactly the rows of the transaction table
that pass the date window, the three set memberships (so an empty selection
gives zero rows) and the loyalty predicate; it is a subset of the table; an
empty multiselect empties it; and `total_sales` is the sum of `total_aed`
over precisely the passing rows. -/
theorem C1_filtered_view_exact (t : List Transaction) (fs : FilterState) :
    (∀ r : Transaction, r ∈ App.filteredView t fs ↔ r ∈ t ∧ passesFilters fs r)
    ∧ (∀ r : Transaction, r ∈ App.filteredView t fs → r ∈ t)
    ∧ (fs.emirates = [] ∨ fs.categories = [] ∨ fs.genders = [] →
        App.filteredView t fs = [])
    ∧ App.totalSales (App.filteredView t fs)
        = ((t.filter (fun r => decide (passesFilters fs r))).map (·.total_aed)).sum := by
  have h := filteredView_eq_filter t fs
  refine ⟨?_, ?_, ?_, ?_⟩
  · intro r
    rw [h, List.mem_filter]
    simp only [decide_eq_true_eq]
  · intro r hr
    rw [h] at hr
    exact List.mem_of_mem_filter hr
  · intro hemp
    rw [h]
    apply List.filter_eq_nil_iff.mpr
    intro r _
    simp only [decide_eq_true_eq]
    intro hp
    obtain ⟨-, hem, hcat, hgen, -⟩ := hp
    rcases hemp with he | he | he
    · rw [he] at hem; exact List.not_mem_nil _ hem
    · rw [he] at hcat; exact List.not_mem_nil _ hcat
    · rw [he] at hgen; exact List.not_mem_nil _ hgen
  · rw [h]
    rfl

/-- Witness for C1 at a concrete table and filter state. -/
theorem C1_witness : exTx ∈ App.filteredView [exTx] exFs := by
  refine ((C1_filtered_view_exact [exTx] exFs).1 exTx).mpr ⟨?_, ?_⟩ <;> decide

/-! ## Shared grouping lemmas -/

/-- A key is a group key exactly when some row carries it. -/
theorem mem_groupKeys {α κ : Type} [DecidableEq κ] (le : κ → κ → Prop)
    [DecidableRel le] (key : α → κ) (l : List α) (k : κ) :
    k ∈ groupKeys le key l ↔ ∃ a ∈ l, key a = k := by
  unfold groupKeys
  rw [(List.perm_insertionSort le _).mem_iff, List.mem_dedup, List.mem_map]

/-- Group keys are pairwise distinct. -/
theorem groupKeys_nodup {α κ : Type} [DecidableEq κ] (le : κ → κ → Prop)
    [DecidableRel le] (key : α → κ) (l : List α) :
    (groupKeys le key l).Nodup :=
  (List.perm_insertionSort le _).nodup_iff.mpr (List.nodup_dedup _)

/-- `find?` over rows built from a key list returns the row built from the
looked-up key, or nothing if the key is absent. -/
theorem find?_map_keys {κ β : Type} [DecidableEq κ] (g : κ → β) (proj : β → κ)
    (hp : ∀ k, proj (g k) = k) (k₀ : κ) :
    ∀ keys : List κ, (keys.map g).find? (fun b => decide (proj b = k₀))
      = if k₀ ∈ keys then some (g k₀) else none
  | [] => by simp
  | k :: ks => by
    have hrec := find?_map_keys g proj hp k₀ ks
    by_cases hk : k = k₀
    · subst hk
      simp [List.find?_cons, hp]
    · rw [List.map_cons, List.find?_cons]
      have hfalse : decide (proj (g k) = k₀) = false := by
        simp [hp, hk]
      rw [hfalse, hrec]
      by_cases hmem : k₀ ∈ ks
      · rw [if_pos hmem, if_pos (List.mem_cons_of_mem _ hmem)]
      · rw [if_neg hmem,
          if_neg (fun h => (List.mem_cons.mp h).elim (fun he => hk he.symm) hmem)]

/-! ## C9: the two implementation variants agree off the ad chart -/

/-- C9: on every input, `app.py` and `new_app.py` compute the same filtered
view, the same KPIs and the same aggregation tables for every view other
than the ad-budget-vs-sales chart. -/
theorem C9_variants_agree (t : List Transaction) (fs : FilterState) :
    App.filteredView t fs = NewApp.filteredView t fs
    ∧ App.totalSales (App.filteredView t fs)
        = NewApp.totalSales (NewApp.filteredView t fs)
    ∧ App.totalTransactions (App.filteredView t fs)
        = NewApp.totalTransactions (NewApp.filteredView t fs)
    ∧ App.avgBasket (App.filteredView t fs)
        = NewApp.avgBasket (NewApp.filteredView t fs)
    ∧ App.ageDist (App.filteredView t fs) = NewApp.ageDist (NewApp.filteredView t fs)
    ∧ App.genderDist (App.filteredView t fs)
        = NewApp.genderDist (NewApp.filteredView t fs)
    ∧ App.catEm (App.filteredView t fs) = NewApp.catEm (NewApp.filteredView t fs)
    ∧ App.loyalTable (App.filteredView t fs)
        = NewApp.loyalTable (NewApp.filteredView t fs)
    ∧ App.redeemSummary (App.filteredView t fs)
        = NewApp.redeemSummary (NewApp.filteredView t fs)
    ∧ App.topProducts (App.filteredView t fs)
        = NewApp.topProducts (NewApp.filteredView t fs) :=
  ⟨rfl, rfl, rfl, rfl, rfl, rfl, rfl, rfl, rfl, rfl⟩

/-! ## C8: the render pass is a pure function of its inputs -/

/-- C8: two runs of the full aggregation pass on equal transaction tables,
equal ad-budget tables and equal filter states produce equal outputs; the
pass reads nothing else. -/
theorem C8_dashboard_deterministic (t t' : List Transaction) (ads ads' : List AdRow)
    (fs fs' : FilterState) (ht : t = t') (ha : ads = ads') (hf : fs = fs') :
    App.dashboard t ads fs = App.dashboard t' ads' fs' := by
  subst ht
  subst ha
  subst hf
  rfl

/-- Witness for C8: two runs on a concrete input coincide. -/
theorem C8_witness : App.dashboard [exTx] [] exFs = App.dashboard [exTx] [] exFs :=
  C8_dashboard_deterministic [exTx] [exTx] [] [] exFs exFs rfl rfl rfl

/-! ## C3: age-bucket boundaries -/

/-- C3 evaluation: the bins of `pd.cut` are right-closed, so age 18,
age 24.999 and also age 25 fall in the bucket labeled "18-24" (the claim
expects "25-34" for age 25), while age 80 falls in "65+". -/
theorem C3_age_boundaries :
    App.ageGroupOf 18 = some "18-24"
    ∧ App.ageGroupOf (24999 / 1000 : ℚ) = some "18-24"
    ∧ App.ageGroupOf 25 = some "18-24"
    ∧ App.ageGroupOf 25 ≠ some "25-34"
    ∧ App.ageGroupOf 80 = some "65+" := by
  refine ⟨by decide, ?_, by decide, by decide, by decide⟩
  unfold App.ageGroupOf
  norm_num

/-! ## C2: the ad-budget merge is a left join on the ad table -/

/-- C2 counterexample: with one ad-budget row for ("2025-01", "Grocery") and
one filtered transaction in month "1970-01", category "Toys", the monthly
sums contain the ("1970-01", "Toys") key but the merged table has no row
for it — the transaction-only key is dropped, not kept with
`ad_budget_aed = 0`. -/
theorem C2_counterexample :
    (∃ s ∈ App.salesMonthCat (App.filteredView [exTx] exFs),
        s.month = "1970-01" ∧ s.category = "Toys")
    ∧ ∀ m ∈ App.merged [⟨"2025-01", "Grocery", 1000⟩] (App.filteredView [exTx] exFs),
        m.month ≠ "1970-01" := by
  decide

/-- C2 amended: the merge keeps exactly the ad-budget rows, in order; each
keeps its `ad_budget_aed` and gets `total_aed` equal to the sum of
`total_aed` over the transactions of that month and category (hence 0 when
no transaction matches); every merged row stems from an ad-budget row, so a
month/category carrying only transactions produces no row. -/
theorem C2_merged_left_join (ads : List AdRow) (v : List Transaction) :
    App.merged ads v = ads.map (fun a =>
      { month := a.month
        category := a.category
        ad_budget_aed := a.ad_budget_aed
        total_aed := App.totalSales (v.filter (fun r =>
          decide (monthKey r.transaction_datetime = a.month ∧
            r.category = a.category))) })
    ∧ ∀ m ∈ App.merged ads v, ∃ a ∈ ads,
        m.month = a.month ∧ m.category = a.category ∧ m.ad_budget_aed = a.ad_budget_aed := by
  constructor
  · unfold App.merged
    apply List.map_congr_left
    intro a _
    have hpred : (fun s : SalesMonthRow =>
        decide (s.month = a.month ∧ s.category = a.category))
        = (fun s : SalesMonthRow =>
            decide ((s.month, s.category) = (a.month, a.category))) := by
      funext s
      simp [Prod.ext_iff]
    rw [hpred]
    unfold App.salesMonthCat
    rw [find?_map_keys
      (fun k : String × String =>
        ({ month := k.1, category := k.2,
           total_aed := App.totalSales (v.filter (fun r =>
             decide (monthKey r.transaction_datetime = k.1 ∧ r.category = k.2))) }
          : SalesMonthRow))
      (fun s => (s.month, s.category)) (fun k => rfl) (a.month, a.category)]
    by_cases hmem : (a.month, a.category) ∈
        groupKeys pairLe (fun r => (monthKey r.transaction_datetime, r.category)) v
    · rw [if_pos hmem]
    · rw [if_neg hmem]
      have hempty : v.filter (fun r =>
          decide (monthKey r.transaction_datetime = a.month ∧
            r.category = a.category)) = [] := by
        apply List.filter_eq_nil_iff.mpr
        intro r hr
        simp only [decide_eq_true_eq]
        intro hmatch
        exact hmem ((mem_groupKeys pairLe _ v _).mpr
          ⟨r, hr, by rw [hmatch.1, hmatch.2]⟩)
      rw [hempty]
      rfl
  · intro m hm
    unfold App.merged at hm
    obtain ⟨a, ha, hme⟩ := List.mem_map.mp hm
    refine ⟨a, ha, ?_⟩
    rcases hfind : (App.salesMonthCat v).find? (fun s =>
        decide (s.month = a.month ∧ s.category = a.category)) with _ | s
    · rw [hfind] at hme
      rw [← hme]
      exact ⟨rfl, rfl, rfl⟩
    · rw [hfind] at hme
      rw [← hme]
      exact ⟨rfl, rfl, rfl⟩

/-- Witness for C2 on a concrete input: one ad row with no matching
transactions is kept with `total_aed = 0`. -/
theorem C2_witness :
    App.merged [⟨"2025-01", "Grocery", 1000⟩] []
      = [{ month := "2025-01", category := "Grocery",
           ad_budget_aed := 1000, total_aed := 0 }] := by
  have h := (C2_merged_left_join [⟨"2025-01", "Grocery", 1000⟩] []).1
  simpa using h

/-! ## C4: empty filtered view -/

/-- What `f"{v:,.2f}"` shows for the value zero. -/
theorem fmtComma2_zero : fmtComma2 0 = "0.00" := by
  have h100 : |(0 : ℚ)| * 100 = 0 := by norm_num
  have hrnd : roundHalfEven 0 = 0 := by
    unfold roundHalfEven
    norm_num
  unfold fmtComma2
  rw [h100, hrnd]
  rfl

/-- C4 counterexample: on an empty filtered view the computation does not
fail and the sums are zero, but the average basket renders as the text
"nan", which is neither blank nor the rendering of zero. -/
theorem C4_counterexample :
    App.filteredView [] exFs = []
    ∧ App.totalSales (App.filteredView [] exFs) = 0
    ∧ App.totalTransactions (App.filteredView [] exFs) = 0
    ∧ App.avgBasketDisplay (App.filteredView [] exFs) = "nan"
    ∧ App.avgBasketDisplay (App.filteredView [] exFs) ≠ ""
    ∧ App.avgBasketDisplay (App.filteredView [] exFs) ≠ fmtComma2 0 := by
  refine ⟨rfl, rfl, rfl, rfl, by decide, ?_⟩
  rw [fmtComma2_zero]
  decide

/-- C4 amended: if the filtered view is empty the KPI pass does not fail:
`total_sales` and the transaction count are zero, and `avg_basket` is
undefined (NaN) and is rendered as the text "nan", not as an error. -/
theorem C4_empty_view_kpis (t : List Transaction) (fs : FilterState)
    (h : App.filteredView t fs = []) :
    App.totalSales (App.filteredView t fs) = 0
    ∧ App.totalTransactions (App.filteredView t fs) = 0
    ∧ App.avgBasket (App.filteredView t fs) = none
    ∧ App.avgBasketDisplay (App.filteredView t fs) = "nan" := by
  rw [h]
  exact ⟨rfl, rfl, rfl, rfl⟩

/-- Witness for C4 at a concrete empty input. -/
theorem C4_witness :
    App.avgBasketDisplay (App.filteredView [] exFs) = "nan" :=
  (C4_empty_view_kpis [] exFs rfl).2.2.2

/-! ## C6: loyalty-impact transaction counts -/

/-- If the transaction id determines the loyalty flag, the distinct ids
split exactly between the two loyalty groups. -/
theorem distinctCount_partition (v : List Transaction)
    (h : ∀ r ∈ v, ∀ s ∈ v, r.transaction_id = s.transaction_id →
      r.has_loyalty = s.has_loyalty) :
    distinctCount ((v.filter (·.has_loyalty == true)).map (·.transaction_id))
      + distinctCount ((v.filter (·.has_loyalty == false)).map (·.transaction_id))
      = distinctCount (v.map (·.transaction_id)) := by
  unfold distinctCount
  rw [← List.card_toFinset, ← List.card_toFinset, ← List.card_toFinset]
  have hdisj : Disjoint
      ((v.filter (·.has_loyalty == true)).map (·.transaction_id)).toFinset
      ((v.filter (·.has_loyalty == false)).map (·.transaction_id)).toFinset := by
    rw [Finset.disjoint_left]
    intro x hxA hxB
    simp only [List.mem_toFinset, List.mem_map, List.mem_filter] at hxA hxB
    obtain ⟨r, ⟨hrv, hrl⟩, hrx⟩ := hxA
    obtain ⟨s, ⟨hsv, hsl⟩, hsx⟩ := hxB
    have := h r hrv s hsv (hrx.trans hsx.symm)
    rw [beq_iff_eq] at hrl hsl
    rw [hrl, hsl] at this
    exact Bool.noConfusion this
  have hunion :
      ((v.filter (·.has_loyalty == true)).map (·.transaction_id)).toFinset
        ∪ ((v.filter (·.has_loyalty == false)).map (·.transaction_id)).toFinset
      = (v.map (·.transaction_id)).toFinset := by
    ext x
    simp only [Finset.mem_union, List.mem_toFinset, List.mem_map, List.mem_filter,
      beq_iff_eq]
    constructor
    · rintro (⟨r, ⟨hrv, _⟩, hrx⟩ | ⟨r, ⟨hrv, _⟩, hrx⟩) <;> exact ⟨r, hrv, hrx⟩
    · rintro ⟨r, hrv, hrx⟩
      cases hl : r.has_loyalty
      · exact Or.inr ⟨r, ⟨hrv, hl⟩, hrx⟩
      · exact Or.inl ⟨r, ⟨hrv, hl⟩, hrx⟩
  rw [← hunion, Finset.card_union_of_disjoint hdisj]

/-- Summing a function over a duplicate-free list of booleans that carries
every boolean with a nonzero value gives the sum over both booleans. -/
theorem sum_over_bool_keys (keys : List Bool) (f : Bool → ℕ) (hnd : keys.Nodup)
    (habs : ∀ b, b ∉ keys → f b = 0) :
    (keys.map f).sum = f true + f false := by
  match keys with
  | [] =>
    have h1 := habs true (by simp)
    have h2 := habs false (by simp)
    simp [h1, h2]
  | [a] =>
    cases a
    · have h1 := habs true (by decide)
      simp [h1]
    · have h2 := habs false (by decide)
      simp [h2]
  | [a, b] =>
    cases a <;> cases b <;> simp_all [Nat.add_comm]
  | a :: b :: c :: rest =>
    exfalso
    rcases List.nodup_cons.mp hnd with ⟨ha, hnd2⟩
    rcases List.nodup_cons.mp hnd2 with ⟨hb, -⟩
    cases a <;> cases b <;> cases c <;> simp_all

/-- C6 amended: provided no transaction id occurs with both loyalty flags
(the spec's duplicate-tolerant data model allows repeated ids), the
per-group distinct transaction counts of the loyalty-impact table add up to
the distinct transaction count of the whole filtered view. -/
theorem C6_loyalty_counts_add_up (t : List Transaction) (fs : FilterState)
    (h : ∀ r ∈ App.filteredView t fs, ∀ s ∈ App.filteredView t fs,
      r.transaction_id = s.transaction_id → r.has_loyalty = s.has_loyalty) :
    ((App.loyalTable (App.filteredView t fs)).map (·.transactions)).sum
      = App.totalTransactions (App.filteredView t fs) := by
  set v := App.filteredView t fs with hv
  unfold App.loyalTable
  rw [List.map_map]
  have hcnt : ((fun r : LoyalRow => r.transactions) ∘ fun b =>
      ({ label := if b then "Members" else "Non-members"
         total_sales := App.totalSales (v.filter (·.has_loyalty == b))
         transactions := App.totalTransactions (v.filter (·.has_loyalty == b))
         avg_basket := App.avgBasket (v.filter (·.has_loyalty == b)) } : LoyalRow))
      = fun b => App.totalTransactions (v.filter (·.has_loyalty == b)) := rfl
  rw [hcnt]
  rw [sum_over_bool_keys _ _ (groupKeys_nodup _ _ _) ?habs]
  case habs =>
    intro b hb
    have hempty : v.filter (·.has_loyalty == b) = [] := by
      apply List.filter_eq_nil_iff.mpr
      intro r hrv hrl
      exact hb ((mem_groupKeys _ _ v b).mpr ⟨r, hrv, beq_iff_eq.mp hrl⟩)
    rw [hempty]
    rfl
  exact distinctCount_partition v h

/-- A second row carrying the same transaction id as `exTx` but the
opposite loyalty flag. -/
def exTxB : Transaction :=
  ⟨"T1", "C2", 0, "Dubai", "Toys", "Ball", 1, 20, "F", 40, false, 0⟩

/-- C6 counterexample: with a duplicated transaction id split across the
two loyalty groups, the per-group distinct counts sum to 2 while the
overall distinct count is 1. -/
theorem C6_counterexample :
    ((App.loyalTable (App.filteredView [exTx, exTxB] exFs)).map (·.transactions)).sum
      ≠ App.totalTransactions (App.filteredView [exTx, exTxB] exFs) := by
  decide

/-- Witness for C6 at a concrete input satisfying the hypothesis. -/
theorem C6_witness :
    ((App.loyalTable (App.filteredView [exTx] exFs)).map (·.transactions)).sum
      = App.totalTransactions (App.filteredView [exTx] exFs) :=
  C6_loyalty_counts_add_up [exTx] exFs (by decide)

/-! ## C10: rows with out-of-range ages -/

/-- Pointwise sums distribute over a mapped list. -/
theorem sum_map_add {κ : Type} (L : List κ) (f g : κ → ℚ) :
    (L.map (fun l => f l + g l)).sum = (L.map f).sum + (L.map g).sum := by
  induction L with
  | nil => simp
  | cons a L ih => simp [ih]; ring

/-- An indicator for an absent key sums to zero. -/
theorem sum_if_not_mem {κ : Type} [DecidableEq κ] (k : κ) (c : ℚ) :
    ∀ L : List κ, k ∉ L → (L.map (fun l => if k = l then c else 0)).sum = 0
  | [], _ => rfl
  | a :: L, hk => by
    have hka : k ≠ a := fun h => hk (h ▸ List.mem_cons_self a L)
    have hkL : k ∉ L := fun h => hk (List.mem_cons_of_mem a h)
    rw [List.map_cons, List.sum_cons, if_neg hka, sum_if_not_mem k c L hkL, zero_add]

/-- An indicator for a key occurring once sums to its value. -/
theorem sum_if_mem {κ : Type} [DecidableEq κ] (k : κ) (c : ℚ) :
    ∀ L : List κ, L.Nodup → k ∈ L →
      (L.map (fun l => if k = l then c else 0)).sum = c
  | [], _, hk => absurd hk (List.not_mem_nil k)
  | a :: L, hnd, hk => by
    rcases List.nodup_cons.mp hnd with ⟨hna, hndL⟩
    by_cases hka : k = a
    · subst hka
      rw [List.map_cons, List.sum_cons, if_pos rfl, sum_if_not_mem k c L hna, add_zero]
    · rcases List.mem_cons.mp hk with h | h
      · exact absurd h hka
      · rw [List.map_cons, List.sum_cons, if_neg hka, sum_if_mem k c L hndL h, zero_add]

/-- A bucket label only arises from the fixed label list. -/
theorem ageGroupOf_mem_labels (x : ℚ) (l : String) (h : App.ageGroupOf x = some l) :
    l ∈ ageLabels := by
  unfold App.ageGroupOf at h
  split_ifs at h
  all_goals try (rw [← Option.some.inj h]; decide)

/-- A bucketed age lies in the overall range `[18, 80]`. -/
theorem ageGroupOf_inRange (x : ℚ) (l : String) (h : App.ageGroupOf x = some l) :
    18 ≤ x ∧ x ≤ 80 := by
  unfold App.ageGroupOf at h
  split_ifs at h with h1 h2 h3 h4 h5 h6
  · exact ⟨h1.1, by linarith [h1.2]⟩
  · exact ⟨by linarith [h2.1], by linarith [h2.2]⟩
  · exact ⟨by linarith [h3.1], by linarith [h3.2]⟩
  · exact ⟨by linarith [h4.1], by linarith [h4.2]⟩
  · exact ⟨by linarith [h5.1], by linarith [h5.2]⟩
  · exact ⟨by linarith [h6.1], h6.2⟩

/-- An age outside `[18, 80]` is bucketed as NaN. -/
theorem ageGroupOf_none_of_out (x : ℚ) (h : x < 18 ∨ 80 < x) :
    App.ageGroupOf x = none := by
  unfold App.ageGroupOf
  rcases h with h | h <;>
    split_ifs with h1 h2 h3 h4 h5 h6 <;>
    first
      | rfl
      | (exfalso; rcases h1 with ⟨ha, hb⟩; linarith)
      | (exfalso; rcases h2 with ⟨ha, hb⟩; linarith)
      | (exfalso; rcases h3 with ⟨ha, hb⟩; linarith)
      | (exfalso; rcases h4 with ⟨ha, hb⟩; linarith)
      | (exfalso; rcases h5 with ⟨ha, hb⟩; linarith)
      | (exfalso; rcases h6 with ⟨ha, hb⟩; linarith)

/-- An age in range is always bucketed. -/
theorem ageGroupOf_some_of_inRange (x : ℚ) (h : 18 ≤ x ∧ x ≤ 80) :
    ∃ l, App.ageGroupOf x = some l := by
  unfold App.ageGroupOf
  split_ifs with h1 h2 h3 h4 h5 h6
  · exact ⟨_, rfl⟩
  · exact ⟨_, rfl⟩
  · exact ⟨_, rfl⟩
  · exact ⟨_, rfl⟩
  · exact ⟨_, rfl⟩
  · exact ⟨_, rfl⟩
  · exfalso
    rcases h with ⟨hge, hle⟩
    have p1 : 25 < x := lt_of_not_le (fun hc => h1 ⟨hge, hc⟩)
    have p2 : 35 < x := lt_of_not_le (fun hc => h2 ⟨p1, hc⟩)
    have p3 : 45 < x := lt_of_not_le (fun hc => h3 ⟨p2, hc⟩)
    have p4 : 55 < x := lt_of_not_le (fun hc => h4 ⟨p3, hc⟩)
    have p5 : 65 < x := lt_of_not_le (fun hc => h5 ⟨p4, hc⟩)
    exact h6 ⟨p5, hle⟩

/-- Summing one row's indicator over the six buckets gives its amount
exactly when its age is in range. -/
theorem indicator_sum (x : ℚ) (c : ℚ) :
    (ageLabels.map (fun l => if App.ageGroupOf x = some l then c else 0)).sum
      = if 18 ≤ x ∧ x ≤ 80 then c else 0 := by
  rcases hag : App.ageGroupOf x with _ | k
  · rw [if_neg ?hout]
    case hout =>
      intro hin
      obtain ⟨l, hl⟩ := ageGroupOf_some_of_inRange x hin
      rw [hag] at hl
      exact Option.noConfusion hl
    simp
  · simp only [Option.some.injEq]
    rw [if_pos (ageGroupOf_inRange x k hag)]
    exact sum_if_mem k c ageLabels (by decide) (ageGroupOf_mem_labels x k hag)

theorem totalSales_cons (r : Transaction) (v : List Transaction) :
    App.totalSales (r :: v) = r.total_aed + App.totalSales v := by
  unfold App.totalSales
  rw [List.map_cons, List.sum_cons]

/-- The bucket amounts of `ageDist` are one sum per label. -/
theorem ageDist_snd (v : List Transaction) :
    (App.ageDist v).map Prod.snd
      = ageLabels.map (fun l =>
          App.totalSales (v.filter (fun x => decide (App.ageGroupOf x.age = some l)))) := by
  unfold App.ageDist
  rw [List.map_map]
  rfl

theorem ageDist_total (v : List Transaction) :
    ((App.ageDist v).map Prod.snd).sum
      = App.totalSales (v.filter (fun x => decide (18 ≤ x.age ∧ x.age ≤ 80))) := by
  induction v with
  | nil =>
    rw [ageDist_snd]
    simp [App.totalSales, ageLabels]
  | cons r v ih =>
    rw [ageDist_snd]
    have hbucket : ∀ l : String,
        App.totalSales ((r :: v).filter (fun x => decide (App.ageGroupOf x.age = some l)))
          = (if App.ageGroupOf r.age = some l then r.total_aed else 0)
            + App.totalSales (v.filter (fun x => decide (App.ageGroupOf x.age = some l))) := by
      intro l
      rw [List.filter_cons]
      by_cases h : App.ageGroupOf r.age = some l
      · rw [if_pos (by simp [h]), if_pos h, totalSales_cons]
      · rw [if_neg (by simp [h]), if_neg h, zero_add]
    have hmap : ageLabels.map (fun l =>
          App.totalSales ((r :: v).filter (fun x => decide (App.ageGroupOf x.age = some l))))
        = ageLabels.map (fun l =>
            (if App.ageGroupOf r.age = some l then r.total_aed else 0)
              + App.totalSales (v.filter (fun x => decide (App.ageGroupOf x.age = some l)))) :=
      List.map_congr_left (fun l _ => hbucket l)
    rw [hmap, sum_map_add, indicator_sum r.age r.total_aed, ← ageDist_snd, ih]
    rw [List.filter_cons]
    by_cases hin : 18 ≤ r.age ∧ r.age ≤ 80
    · rw [if_pos hin, if_pos (by simpa using hin), totalSales_cons]
    · rw [if_neg hin, if_neg (by simpa using hin), zero_add]

/-- Filtering by a predicate and by its negation splits a sum. -/
theorem totalSales_filter_split (v : List Transaction) (p : Transaction → Bool) :
    App.totalSales v
      = App.totalSales (v.filter p) + App.totalSales (v.filter (fun x => !(p x))) := by
  induction v with
  | nil => simp [App.totalSales]
  | cons r v ih =>
    rw [List.filter_cons, List.filter_cons, totalSales_cons, ih]
    cases hp : p r
    · rw [if_neg (by simp [hp]), if_pos (by simp [hp]), totalSales_cons]
      ring
    · rw [if_pos (by simp [hp]), if_neg (by simp [hp]), totalSales_cons]
      ring

/-- C10: a filtered row whose age is below 18 or above 80 is bucketed as
NaN and its `total_aed` is counted in no age bucket (the buckets together
cover exactly the rows with age in `[18, 80]`), while the row still
contributes to `total_sales` (which splits into bucketed plus out-of-range
sales), to the distinct-id count, and to the average basket's population. -/
theorem C10_out_of_range_age (t : List Transaction) (fs : FilterState)
    (r : Transaction) (hr : r ∈ App.filteredView t fs)
    (hout : r.age < 18 ∨ 80 < r.age) :
    App.ageGroupOf r.age = none
    ∧ ((App.ageDist (App.filteredView t fs)).map Prod.snd).sum
        = App.totalSales ((App.filteredView t fs).filter
            (fun x => decide (18 ≤ x.age ∧ x.age ≤ 80)))
    ∧ App.totalSales (App.filteredView t fs)
        = ((App.ageDist (App.filteredView t fs)).map Prod.snd).sum
          + App.totalSales ((App.filteredView t fs).filter
              (fun x => !(decide (18 ≤ x.age ∧ x.age ≤ 80))))
    ∧ r ∈ (App.filteredView t fs).filter
        (fun x => !(decide (18 ≤ x.age ∧ x.age ≤ 80)))
    ∧ r.transaction_id ∈ (App.filteredView t fs).map (·.transaction_id)
    ∧ App.avgBasket (App.filteredView t fs)
        = some (App.totalSales (App.filteredView t fs)
            / (((App.filteredView t fs).length : ℕ) : ℚ)) := by
  refine ⟨ageGroupOf_none_of_out r.age hout, ageDist_total _, ?_, ?_, ?_, ?_⟩
  · rw [ageDist_total]
    exact totalSales_filter_split _ _
  · rw [List.mem_filter]
    refine ⟨hr, ?_⟩
    simp only [Bool.not_eq_true', decide_eq_false_iff_not]
    intro hin
    rcases hout with h | h <;> [exact absurd hin.1 (not_le.mpr h); exact absurd hin.2 (not_le.mpr h)]
  · exact List.mem_map.mpr ⟨r, hr, rfl⟩
  · unfold App.avgBasket
    rw [if_neg]
    simp only [List.isEmpty_iff]
    intro hemp
    rw [hemp] at hr
    exact List.not_mem_nil r hr

/-- A filtered row with age 17. -/
def exTxC : Transaction :=
  ⟨"T3", "C3", 0, "Dubai", "Toys", "Car", 1, 10, "F", 17, true, 0⟩

/-- Witness for C10 at a concrete filtered row with age 17. -/
theorem C10_witness : App.ageGroupOf exTxC.age = none :=
  (C10_out_of_range_age [exTxC] exFs exTxC (by decide) (by decide)).1

/-! ## C5: export round-trip -/

/-- Reading a run of ordinary characters accumulates them into the current
field. -/
theorem scanCsv_plain_run :
    ∀ (cs : List Char), (∀ c ∈ cs, c ≠ '"' ∧ c ≠ ',' ∧ c ≠ '\n') →
      ∀ (rest cur : List Char) (rec : List String),
        scanCsv (cs ++ rest) CsvMode.plain cur rec
          = scanCsv rest CsvMode.plain (cur ++ cs) rec
  | [], _, rest, cur, rec => by simp
  | c :: cs, h, rest, cur, rec => by
    obtain ⟨h1, h2, h3⟩ := h c (List.mem_cons_self c cs)
    have hcs : ∀ c ∈ cs, c ≠ '"' ∧ c ≠ ',' ∧ c ≠ '\n' :=
      fun x hx => h x (List.mem_cons_of_mem c hx)
    rw [List.cons_append]
    show (if c = '"' then _ else if c = ',' then _ else if c = '\n' then _ else
      scanCsv (cs ++ rest) CsvMode.plain (cur ++ [c]) rec) = _
    rw [if_neg h1, if_neg h2, if_neg h3,
      scanCsv_plain_run cs hcs rest (cur ++ [c]) rec]
    simp

/-- Reading the escaped body of a quoted field accumulates the original
characters and stops at the closing quote. -/
theorem scanCsv_quoted_run :
    ∀ (cs : List Char) (rest cur : List Char) (rec : List String),
      scanCsv (escQuotes cs ++ ('"' :: rest)) CsvMode.quoted cur rec
        = scanCsv rest CsvMode.closedQuote (cur ++ cs) rec
  | [], rest, cur, rec => by
    show scanCsv ('"' :: rest) CsvMode.quoted cur rec = _
    show (if '"' = '"' then scanCsv rest CsvMode.closedQuote cur rec else _) = _
    rw [if_pos rfl, List.append_nil]
  | c :: cs, rest, cur, rec => by
    by_cases hc : c = '"'
    · subst hc
      show scanCsv ('"' :: ('"' :: (escQuotes cs ++ ('"' :: rest))))
          CsvMode.quoted cur rec = _
      show (if '"' = '"' then
          scanCsv ('"' :: (escQuotes cs ++ ('"' :: rest))) CsvMode.closedQuote cur rec
        else _) = _
      rw [if_pos rfl]
      show (if '"' = '"' then
          scanCsv (escQuotes cs ++ ('"' :: rest)) CsvMode.quoted (cur ++ ['"']) rec
        else _) = _
      rw [if_pos rfl, scanCsv_quoted_run cs rest (cur ++ ['"']) rec]
      simp
    · show scanCsv ((if c = '"' then '"' :: '"' :: escQuotes cs else c :: escQuotes cs)
          ++ ('"' :: rest)) CsvMode.quoted cur rec = _
      rw [if_neg hc, List.cons_append]
      show (if c = '"' then _ else
        scanCsv (escQuotes cs ++ ('"' :: rest)) CsvMode.quoted (cur ++ [c]) rec) = _
      rw [if_neg hc, scanCsv_quoted_run cs rest (cur ++ [c]) rec]
      simp

/-- The characters of an unquoted field are unrestricted. -/
theorem not_needsQuote_chars (f : String) (h : needsQuote f = false) :
    ∀ c ∈ f.data, c ≠ '"' ∧ c ≠ ',' ∧ c ≠ '\n' := by
  intro c hc
  unfold needsQuote at h
  rw [List.any_eq_false] at h
  have := h c hc
  simp only [Bool.or_eq_true, decide_eq_true_eq, not_or] at this
  tauto

/-- Reading one serialized field followed by a comma appends the field to
the record. -/
theorem scanCsv_field_comma (f : String) (rest : List Char) (rec : List String) :
    scanCsv ((renderField f).data ++ (',' :: rest)) CsvMode.plain [] rec
      = scanCsv rest CsvMode.plain [] (rec ++ [f]) := by
  unfold renderField
  by_cases hq : needsQuote f
  · rw [if_pos hq]
    show scanCsv (('"' :: (escQuotes f.data ++ ['"'])) ++ (',' :: rest))
        CsvMode.plain [] rec = _
    rw [List.cons_append, List.append_assoc]
    show (if '"' = '"' then
        scanCsv (escQuotes f.data ++ ('"' :: (',' :: rest))) CsvMode.quoted [] rec
      else _) = _
    rw [if_pos rfl, scanCsv_quoted_run f.data (',' :: rest) [] rec]
    show (if ',' = '"' then _ else if ',' = ',' then
        scanCsv rest CsvMode.plain [] (rec ++ [String.mk ([] ++ f.data)]) else _) = _
    rw [if_neg (by decide), if_pos rfl]
    rw [List.nil_append]
  · rw [if_neg hq]
    rw [scanCsv_plain_run f.data (not_needsQuote_chars f (by simpa using hq))
      (',' :: rest) [] rec]
    show (if ',' = '"' then _ else if ',' = ',' then
        scanCsv rest CsvMode.plain [] (rec ++ [String.mk ([] ++ f.data)]) else _) = _
    rw [if_neg (by decide), if_pos rfl]
    rw [List.nil_append]

/-- Reading one serialized field followed by a newline closes the record. -/
theorem scanCsv_field_newline (f : String) (rest : List Char) (rec : List String) :
    scanCsv ((renderField f).data ++ ('\n' :: rest)) CsvMode.plain [] rec
      = (rec ++ [f]) :: scanCsv rest CsvMode.plain [] [] := by
  unfold renderField
  by_cases hq : needsQuote f
  · rw [if_pos hq]
    show scanCsv (('"' :: (escQuotes f.data ++ ['"'])) ++ ('\n' :: rest))
        CsvMode.plain [] rec = _
    rw [List.cons_append, List.append_assoc]
    show (if '"' = '"' then
        scanCsv (escQuotes f.data ++ ('"' :: ('\n' :: rest))) CsvMode.quoted [] rec
      else _) = _
    rw [if_pos rfl, scanCsv_quoted_run f.data ('\n' :: rest) [] rec]
    show (if '\n' = '"' then _ else if '\n' = ',' then _ else if '\n' = '\n' then
        (rec ++ [String.mk ([] ++ f.data)]) :: scanCsv rest CsvMode.plain [] [] else _) = _
    rw [if_neg (by decide), if_neg (by decide), if_pos rfl]
    rw [List.nil_append]
  · rw [if_neg hq]
    rw [scanCsv_plain_run f.data (not_needsQuote_chars f (by simpa using hq))
      ('\n' :: rest) [] rec]
    show (if '\n' = '"' then _ else if '\n' = ',' then _ else if '\n' = '\n' then
        (rec ++ [String.mk ([] ++ f.data)]) :: scanCsv rest CsvMode.plain [] [] else _) = _
    rw [if_neg (by decide), if_neg (by decide), if_pos rfl]
    rw [List.nil_append]

/-- Reading one serialized record followed by its newline terminator yields
exactly its fields. -/
theorem scanCsv_record :
    ∀ (fields : List String), fields ≠ [] → ∀ (rest : List Char) (rec : List String),
      scanCsv ((renderRecord fields).data ++ ('\n' :: rest)) CsvMode.plain [] rec
        = (rec ++ fields) :: scanCsv rest CsvMode.plain [] []
  | [], h, _, _ => absurd rfl h
  | [f], _, rest, rec => by
    show scanCsv ((renderField f).data ++ ('\n' :: rest)) CsvMode.plain [] rec = _
    rw [scanCsv_field_newline f rest rec]
  | f :: f2 :: fs, _, rest, rec => by
    show scanCsv ((renderField f ++ "," ++ renderRecord (f2 :: fs)).data
        ++ ('\n' :: rest)) CsvMode.plain [] rec = _
    rw [String.data_append, String.data_append]
    show scanCsv (((renderField f).data ++ [','] ++ (renderRecord (f2 :: fs)).data)
        ++ ('\n' :: rest)) CsvMode.plain [] rec = _
    rw [List.append_assoc, List.append_assoc]
    rw [show ([','] : List Char) ++ ((renderRecord (f2 :: fs)).data ++ ('\n' :: rest))
        = ',' :: ((renderRecord (f2 :: fs)).data ++ ('\n' :: rest)) from rfl]
    rw [scanCsv_field_comma f _ rec]
    rw [scanCsv_record (f2 :: fs) (List.cons_ne_nil f2 fs) rest (rec ++ [f])]
    rw [List.append_assoc]
    rfl

/-- Scanning a whole serialized table recovers every record. -/
theorem scanCsv_toCsv :
    ∀ (records : List (List String)), (∀ rec ∈ records, rec ≠ []) →
      scanCsv (toCsv records).data CsvMode.plain [] [] = records
  | [], _ => rfl
  | rec :: rest, h => by
    show scanCsv ((renderRecord rec ++ "\n" ++ toCsv rest).data)
        CsvMode.plain [] [] = _
    rw [String.data_append, String.data_append]
    rw [List.append_assoc]
    rw [show (("\n" : String).data ++ (toCsv rest).data)
        = '\n' :: (toCsv rest).data from rfl]
    rw [scanCsv_record rec (h rec (List.mem_cons_self rec rest)) _ []]
    rw [scanCsv_toCsv rest (fun x hx => h x (List.mem_cons_of_mem rec hx))]
    rw [List.nil_append]

/-- C5: serializing the filtered view with `to_csv(index=False)` and
re-parsing gives back the header and exactly one record per row: the same
row count and the same column set as the in-memory filtered view. -/
theorem C5_export_roundtrip (t : List Transaction) (fs : FilterState) :
    parseCsv (App.exportCsv (App.filteredView t fs))
      = App.exportHeader :: (App.filteredView t fs).map App.exportRow
    ∧ (parseCsv (App.exportCsv (App.filteredView t fs))).length
        = (App.filteredView t fs).length + 1
    ∧ (parseCsv (App.exportCsv (App.filteredView t fs))).head?
        = some App.exportHeader := by
  have hne : ∀ rec ∈ App.exportHeader :: (App.filteredView t fs).map App.exportRow,
      rec ≠ [] := by
    intro rec hrec
    rcases List.mem_cons.mp hrec with h | h
    · subst h
      unfold App.exportHeader
      exact List.cons_ne_nil _ _
    · obtain ⟨r, _, hrr⟩ := List.mem_map.mp h
      rw [← hrr]
      unfold App.exportRow
      exact List.cons_ne_nil _ _
  have hscan := scanCsv_toCsv
    (App.exportHeader :: (App.filteredView t fs).map App.exportRow) hne
  have hmain : parseCsv (App.exportCsv (App.filteredView t fs))
      = App.exportHeader :: (App.filteredView t fs).map App.exportRow := by
    unfold parseCsv App.exportCsv
    rw [hscan]
    apply List.filter_eq_self.mpr
    intro rec hrec
    have hlen : ∀ xs : List String, xs.length ≠ 1 → xs ≠ [""] := by
      intro xs hl hh
      rw [hh] at hl
      exact hl rfl
    rcases List.mem_cons.mp hrec with h | h
    · subst h
      simp only [decide_eq_true_eq]
      apply hlen _
      unfold App.exportHeader
      simp
    · obtain ⟨r, _, hrr⟩ := List.mem_map.mp h
      rw [← hrr]
      simp only [decide_eq_true_eq]
      apply hlen _
      unfold App.exportRow
      simp
  refine ⟨hmain, ?_, ?_⟩
  · rw [hmain]
    rw [List.length_cons, List.length_map]
  · rw [hmain]
    rfl
